import Mathlib

/-!
Verification of the Shapes polygon editor (src/src/components/Canvas.tsx).

The source is a React component whose handlers read one consistent snapshot
of the component state and issue `setX` calls; we embed each handler as a
pure function `CanvasState → ... → CanvasState`. Coordinates are embedded
as rationals. The source compares `Math.sqrt d < T` for nonnegative `d`
and positive thresholds `T`; we compare `d < T^2`, which is equivalent over
the reals and keeps every definition computable. JavaScript indexing with
an out-of-range index crashes the handler (property access on `undefined`);
we use `getD` with a default, and prove separately that on the states the
theorems quantify over the indices in question are in range where that
matters.
-/

namespace Shapes

structure Point where
  x : ℚ
  y : ℚ
deriving DecidableEq

structure Polygon where
  points : List Point
  color : String
deriving DecidableEq

inductive Tool
  | hand
  | pencil
  | select
deriving DecidableEq

inductive DragMode
  | move
  | resize
deriving DecidableEq

def HANDLE_SIZE : ℚ := 8

def EDGE_DETECTION_THRESHOLD : ℚ := 10

def colors : List String :=
  ["#3498db", "#e74c3c", "#2ecc71", "#f1c40f",
   "#9b59b6", "#1abc9c", "#e67e22", "#34495e"]

def pt0 : Point := ⟨0, 0⟩

def polygon0 : Polygon := ⟨[], ""⟩

/-- Squared Euclidean distance. The source computes
`Math.sqrt((px-qx)^2 + (py-qy)^2)` and compares the root against a
threshold; all our comparisons use the square of the threshold. -/
def distSq (p q : Point) : ℚ :=
  (p.x - q.x) * (p.x - q.x) + (p.y - q.y) * (p.y - q.y)

/-- `projectPointOnLine` from the source. `length === 0` in the source is
equivalent to `dx*dx + dy*dy = 0` here, and `t` divides by
`length * length = dx*dx + dy*dy`. -/
def projectPointOnLine (point pStart pEnd : Point) : Option Point :=
  let dx := pEnd.x - pStart.x
  let dy := pEnd.y - pStart.y
  let lengthSq := dx * dx + dy * dy
  if lengthSq = 0 then none
  else
    let t := ((point.x - pStart.x) * dx + (point.y - pStart.y) * dy) / lengthSq
    if t < 0 ∨ t > 1 then none
    else some ⟨pStart.x + t * dx, pStart.y + t * dy⟩

structure EdgeHit where
  point : Point
  index : Nat
deriving DecidableEq

/-- Projection of `point` onto edge `i` of the polygon (from vertex `i` to
vertex `(i+1) mod n`), as computed inside the loop of
`findClosestEdgePoint`. -/
def edgeProj (point : Point) (pts : List Point) (i : Nat) : Option Point :=
  projectPointOnLine point (pts.getD i pt0) (pts.getD ((i + 1) % pts.length) pt0)

/-- `distance < closestDistance` with `closestDistance = Infinity` encoded
as `none`. -/
def beatsBest (d : ℚ) : Option (ℚ × EdgeHit) → Bool
  | none => true
  | some b => decide (d < b.1)

/-- One iteration of the `findClosestEdgePoint` loop: the accumulator is
`none` while `closestDistance` is still `Infinity`, and otherwise holds the
(squared) closest distance together with the candidate hit. -/
def edgeStep (point : Point) (pts : List Point)
    (best : Option (ℚ × EdgeHit)) (i : Nat) : Option (ℚ × EdgeHit) :=
  match edgeProj point pts i with
  | none => best
  | some projection =>
    let d := distSq point projection
    if d < EDGE_DETECTION_THRESHOLD ^ 2 ∧ beatsBest d best = true then
      some (d, ⟨projection, i + 1⟩)
    else best

/-- `findClosestEdgePoint` from the source: scan edges `i = 0 .. n-1` in
order, keep the strictly closest qualifying candidate. -/
def findClosestEdgePoint (point : Point) (pts : List Point) : Option EdgeHit :=
  ((List.range pts.length).foldl (edgeStep point pts) none).map (·.2)

/-- `isPointNearHandle` from the source (`distance < HANDLE_SIZE`). -/
def isPointNearHandle (point handlePoint : Point) : Bool :=
  decide (distSq handlePoint point < HANDLE_SIZE ^ 2)

/-- The crossing test for one edge of the ray-casting loop in
`isPointInPolygon`. The division is evaluated only under the strict
inequality XOR, which forces `pj.y ≠ pi.y`, matching the short-circuit
`&&` in the source. -/
def crossing (point pi pj : Point) : Bool :=
  decide ((pi.y > point.y) ≠ (pj.y > point.y)) &&
  decide (point.x < (pj.x - pi.x) * (point.y - pi.y) / (pj.y - pi.y) + pi.x)

/-- Index of the previous vertex, as maintained by `j` in the source loop
(`j = n-1` for `i = 0`, else `j = i-1`). -/
def prevIdx (n i : Nat) : Nat :=
  if i = 0 then n - 1 else i - 1

/-- `isPointInPolygon` from the source: ray-casting with a parity flag. -/
def isPointInPolygon (point : Point) (pts : List Point) : Bool :=
  (List.range pts.length).foldl
    (fun inside i =>
      if crossing point (pts.getD i pt0) (pts.getD (prevIdx pts.length i) pt0) then
        !inside
      else inside)
    false

/-- The canvas component state: one field per `useState` hook. -/
structure CanvasState where
  currentPoints : List Point
  polygons : List Polygon
  selectedPolygon : Option Nat
  isDragging : Bool
  dragStart : Option Point
  activeTool : Tool
  dragMode : DragMode
  selectedHandle : Option Nat
deriving DecidableEq

def initialState : CanvasState :=
  { currentPoints := []
    polygons := []
    selectedPolygon := none
    isDragging := false
    dragStart := none
    activeTool := Tool.pencil
    dragMode := DragMode.move
    selectedHandle := none }

/-- The reverse scan of the edge-splitting block in
`handlePencilInteraction`: polygons are tried from the most recently added
down, and the first one yielding an edge hit wins. -/
def findSplitGo (point : Point) (polys : List Polygon) :
    List Nat → Option (Nat × EdgeHit)
  | [] => none
  | i :: rest =>
    match findClosestEdgePoint point (polys.getD i polygon0).points with
    | some hit => some (i, hit)
    | none => findSplitGo point polys rest

def findSplit (point : Point) (polys : List Polygon) : Option (Nat × EdgeHit) :=
  findSplitGo point polys (List.range polys.length).reverse

/-- Replace the point list of polygon `i` by `f` of it, as the
`updatedPolygons[i] = { ...updatedPolygons[i], points: ... }` pattern does. -/
def modifyPolyPoints (polys : List Polygon) (i : Nat)
    (f : List Point → List Point) : List Polygon :=
  match polys.get? i with
  | some poly => polys.set i { poly with points := f poly.points }
  | none => polys

/-- `handlePencilInteraction` from the source. The close test is
`distance < 20`, hence `distSq < 20^2` here. -/
def handlePencilInteraction (s : CanvasState) (point : Point) : CanvasState :=
  if 2 < s.currentPoints.length ∧
      distSq (s.currentPoints.getD 0 pt0) point < 20 ^ 2 then
    { s with
      polygons := s.polygons ++
        [⟨s.currentPoints, colors.getD (s.polygons.length % colors.length) ""⟩]
      currentPoints := [] }
  else if s.currentPoints.length = 0 then
    match findSplit point s.polygons with
    | some (i, hit) =>
      { s with
        polygons := modifyPolyPoints s.polygons i
          (fun pts => pts.insertIdx hit.index hit.point)
        selectedPolygon := some i
        selectedHandle := some hit.index }
    | none => { s with currentPoints := s.currentPoints ++ [point] }
  else { s with currentPoints := s.currentPoints ++ [point] }

/-- First vertex of `pts` within `HANDLE_SIZE` of `point`, in index order:
the handle loop at the top of `handleStart`. -/
def findHandleIdx (point : Point) (pts : List Point) : Option Nat :=
  (List.range pts.length).find? (fun i => isPointNearHandle point (pts.getD i pt0))

/-- The guarded handle scan of `handleStart`: only runs for the select tool
with a polygon already selected. -/
def resizeHit (s : CanvasState) (point : Point) : Option Nat :=
  if s.activeTool = Tool.select then
    s.selectedPolygon.bind
      (fun sp => findHandleIdx point (s.polygons.getD sp polygon0).points)
  else none

/-- The fill-hit scan of `handleStart`: polygons tested from the most
recently added down. -/
def findFillHit (point : Point) (polys : List Polygon) : Option Nat :=
  (List.range polys.length).reverse.find?
    (fun i => isPointInPolygon point (polys.getD i polygon0).points)

/-- `handleStart` from the source. -/
def handleStart (s : CanvasState) (point : Point) : CanvasState :=
  if s.activeTool = Tool.pencil then s
  else
    match resizeHit s point with
    | some i =>
      { s with
        dragMode := DragMode.resize
        selectedHandle := some i
        isDragging := true
        dragStart := some point }
    | none =>
      match findFillHit point s.polygons with
      | some i =>
        { s with
          selectedPolygon := some i
          isDragging := true
          dragStart := some point
          dragMode := DragMode.move }
      | none => { s with selectedPolygon := none, selectedHandle := none }

/-- `handleMove` from the source. The early return fires unless a drag is
active with a selected polygon and an anchor. -/
def handleMove (s : CanvasState) (point : Point) : CanvasState :=
  match s.isDragging, s.selectedPolygon, s.dragStart with
  | true, some sp, some ds =>
    let dx := point.x - ds.x
    let dy := point.y - ds.y
    let newPolys :=
      if s.dragMode = DragMode.resize then
        match s.selectedHandle with
        | some h =>
          modifyPolyPoints s.polygons sp
            (fun pts =>
              pts.set h ⟨(pts.getD h pt0).x + dx, (pts.getD h pt0).y + dy⟩)
        | none => s.polygons
      else
        modifyPolyPoints s.polygons sp
          (fun pts => pts.map (fun p => ⟨p.x + dx, p.y + dy⟩))
    { s with polygons := newPolys, dragStart := some point }
  | _, _, _ => s

/-- `handleEnd` from the source. `setIsDragging(false)` does not change the
`isDragging` binding the handler closed over, so the final guard reads the
value at entry. -/
def handleEnd (s : CanvasState) : CanvasState :=
  { s with
    isDragging := false
    dragStart := none
    dragMode := DragMode.move
    selectedHandle := if s.isDragging then s.selectedHandle else none }

/-- `handleInteraction` from the source: a click is suppressed while
dragging, and otherwise routed to the pencil handler when that tool is
active. -/
def handleInteraction (s : CanvasState) (point : Point) : CanvasState :=
  if s.isDragging then s
  else if s.activeTool = Tool.pencil then handlePencilInteraction s point
  else s

/-- `handleToolChange` from the source. -/
def handleToolChange (s : CanvasState) (tool : Tool) : CanvasState :=
  let s1 := { s with activeTool := tool }
  let s2 :=
    if tool = Tool.pencil then
      { s1 with selectedPolygon := none, selectedHandle := none }
    else s1
  let s3 := { s2 with isDragging := false, dragStart := none }
  if tool = Tool.hand ∨ tool = Tool.select then { s3 with currentPoints := [] }
  else s3

/-- The normalized pointer-event stream of the spec, plus tool switches. -/
inductive Event
  | press (p : Point)
  | moveTo (p : Point)
  | release
  | commit (p : Point)
  | setTool (t : Tool)
deriving DecidableEq

def step (s : CanvasState) : Event → CanvasState
  | Event.press p => handleStart s p
  | Event.moveTo p => handleMove s p
  | Event.release => handleEnd s
  | Event.commit p => handleInteraction s p
  | Event.setTool t => handleToolChange s t

def run (events : List Event) : CanvasState :=
  events.foldl step initialState

/-- A state is reachable when some event sequence produces it from the
initial state. -/
def Reachable (s : CanvasState) : Prop :=
  ∃ events, run events = s

/-- Reachability restricted to well-formed pointer streams: a press arrives
only while no drag is active (presses and releases properly paired). -/
inductive ReachableGuarded : CanvasState → Prop
  | init : ReachableGuarded initialState
  | press {s : CanvasState} (p : Point) : ReachableGuarded s →
      s.isDragging = false → ReachableGuarded (handleStart s p)
  | moveEv {s : CanvasState} (p : Point) : ReachableGuarded s →
      ReachableGuarded (handleMove s p)
  | releaseEv {s : CanvasState} : ReachableGuarded s →
      ReachableGuarded (handleEnd s)
  | commitEv {s : CanvasState} (p : Point) : ReachableGuarded s →
      ReachableGuarded (handleInteraction s p)
  | toolEv {s : CanvasState} (t : Tool) : ReachableGuarded s →
      ReachableGuarded (handleToolChange s t)

/-- Projection parameter `t` of `projectPointOnLine`, written with the same
`dx`, `dy` and `length * length` denominator as the source (division by zero
yields `0` in `ℚ`, and the zero-length case is settled separately). -/
def tParam (point pStart pEnd : Point) : ℚ :=
  ((point.x - pStart.x) * (pEnd.x - pStart.x) + (point.y - pStart.y) * (pEnd.y - pStart.y)) /
    ((pEnd.x - pStart.x) * (pEnd.x - pStart.x) + (pEnd.y - pStart.y) * (pEnd.y - pStart.y))

/-- Number of edges whose crossing test fires in the ray-casting loop. -/
def crossingCount (point : Point) (pts : List Point) : Nat :=
  ((List.range pts.length).filter
    (fun i => crossing point (pts.getD i pt0) (pts.getD (prevIdx pts.length i) pt0))).length

/-- Loop invariant of the `findClosestEdgePoint` scan after the first `n`
edges: `none` means no edge so far qualified; otherwise the accumulator
holds the squared distance and hit of the closest qualifying edge so far,
with ties resolved to the first such edge. -/
def ScanInv (p : Point) (pts : List Point) (n : Nat) :
    Option (ℚ × EdgeHit) → Prop
  | none =>
    ∀ i < n, ∀ pr, edgeProj p pts i = some pr →
      ¬ distSq p pr < EDGE_DETECTION_THRESHOLD ^ 2
  | some (d, hit) =>
    ∃ i < n, ∃ pr, edgeProj p pts i = some pr ∧
      distSq p pr < EDGE_DETECTION_THRESHOLD ^ 2 ∧ d = distSq p pr ∧
      hit = ⟨pr, i + 1⟩ ∧
      ∀ j < n, ∀ prj, edgeProj p pts j = some prj →
        distSq p prj < EDGE_DETECTION_THRESHOLD ^ 2 →
        d ≤ distSq p prj ∧ (j < i → d < distSq p prj)

/-- All committed polygons have at least three points. -/
def MinPoints (s : CanvasState) : Prop :=
  ∀ poly ∈ s.polygons, 3 ≤ poly.points.length

/-- C2: pencil workflow trace of the spec — three commits then a closing
click within the close threshold of the first point. -/
def c2trace : List Event :=
  [Event.commit ⟨0, 0⟩, Event.commit ⟨100, 0⟩, Event.commit ⟨100, 100⟩,
   Event.commit ⟨5, 5⟩]

/-- The state just before the closing click of `c2trace`. -/
def c2state3 : CanvasState :=
  { initialState with currentPoints := [⟨0, 0⟩, ⟨100, 0⟩, ⟨100, 100⟩] }

/-- C1 counterexample trace: draw a triangle, split its diagonal edge
(selecting handle 3 of the now four-point polygon 0), draw a second
three-point triangle, switch to select, and press inside the second
triangle. -/
def c1trace : List Event :=
  [Event.commit ⟨0, 0⟩, Event.commit ⟨100, 0⟩, Event.commit ⟨100, 100⟩,
   Event.commit ⟨5, 5⟩,
   Event.commit ⟨50, 50⟩,
   Event.commit ⟨300, 0⟩, Event.commit ⟨400, 0⟩, Event.commit ⟨400, 100⟩,
   Event.commit ⟨305, 5⟩,
   Event.setTool Tool.select]

/-- C5 counterexample trace: draw a triangle, switch to select, press
inside it (starting a drag), then press again on empty canvas without any
release in between. -/
def c5trace : List Event :=
  [Event.commit ⟨0, 0⟩, Event.commit ⟨100, 0⟩, Event.commit ⟨100, 100⟩,
   Event.commit ⟨5, 5⟩,
   Event.setTool Tool.select,
   Event.press ⟨60, 25⟩,
   Event.press ⟨300, 300⟩]

/-- Trace used to exhibit a committed polygon for the C9 witness. -/
def c9trace : List Event :=
  [Event.commit ⟨0, 0⟩, Event.commit ⟨100, 0⟩, Event.commit ⟨100, 100⟩,
   Event.commit ⟨5, 5⟩]

/-- Square polygon used as a concrete edge-insertion input. -/
def sqPts : List Point := [⟨0, 0⟩, ⟨100, 0⟩, ⟨100, 100⟩, ⟨0, 100⟩]

/-- Concrete state for the C10 witness: resize drag active with no
selected handle. -/
def c10state : CanvasState :=
  { currentPoints := []
    polygons := [⟨[⟨0, 0⟩, ⟨10, 0⟩, ⟨0, 10⟩], "#3498db"⟩]
    selectedPolygon := some 0
    isDragging := true
    dragStart := some ⟨0, 0⟩
    activeTool := Tool.select
    dragMode := DragMode.resize
    selectedHandle := none }

/-- C6: on every release/cancel the drag becomes idle and the anchor is
cleared, and the selected vertex is cleared exactly when no drag was
active at the moment the release arrived. -/
theorem handleEnd_spec (s : CanvasState) :
    (handleEnd s).isDragging = false ∧ (handleEnd s).dragStart = none ∧
    (handleEnd s).selectedHandle =
      (if s.isDragging then s.selectedHandle else none) :=
  ⟨rfl, rfl, rfl⟩

/-- C7: switching to pencil clears both selections; switching to hand or
select empties the in-progress sequence; every tool switch forces the drag
idle and clears the anchor; and select-then-pencil leaves an empty
in-progress sequence. -/
theorem handleToolChange_spec (s : CanvasState) (t : Tool) :
    (handleToolChange s Tool.pencil).selectedPolygon = none ∧
    (handleToolChange s Tool.pencil).selectedHandle = none ∧
    (handleToolChange s Tool.hand).currentPoints = [] ∧
    (handleToolChange s Tool.select).currentPoints = [] ∧
    (handleToolChange s t).isDragging = false ∧
    (handleToolChange s t).dragStart = none ∧
    (handleToolChange (handleToolChange s Tool.select) Tool.pencil).currentPoints = [] := by
  refine ⟨rfl, rfl, rfl, rfl, ?_, ?_, rfl⟩ <;> cases t <;> rfl

/-- C10: a move event during a resize drag with no selected vertex leaves
the polygon store unchanged while still updating the drag anchor. -/
theorem handleMove_resize_no_handle (s : CanvasState) (p : Point) (i : Nat)
    (a : Point) (hd : s.isDragging = true) (hsp : s.selectedPolygon = some i)
    (hds : s.dragStart = some a) (hm : s.dragMode = DragMode.resize)
    (hh : s.selectedHandle = none) :
    (handleMove s p).polygons = s.polygons ∧
    (handleMove s p).dragStart = some p := by
  unfold handleMove
  rw [hd, hsp, hds]
  simp [hm, hh]

theorem handleMove_resize_no_handle_witness :
    (handleMove c10state ⟨5, 5⟩).polygons = c10state.polygons ∧
    (handleMove c10state ⟨5, 5⟩).dragStart = some ⟨5, 5⟩ :=
  handleMove_resize_no_handle c10state ⟨5, 5⟩ 0 ⟨0, 0⟩ rfl rfl rfl rfl rfl

/-- C2: a pencil commit with more than two in-progress points landing
within `CLOSE_THRESHOLD = 20` of the first point appends a polygon holding
a copy of the in-progress sequence, colored by the polygon count before
the commit, and empties the in-progress sequence; concretely, the
four-click trace of the spec yields exactly one committed three-point
polygon and an empty in-progress sequence. -/
theorem pencil_commit_spec :
    (∀ (s : CanvasState) (p : Point),
      2 < s.currentPoints.length →
      distSq (s.currentPoints.getD 0 pt0) p < 20 ^ 2 →
      handlePencilInteraction s p =
        { s with
          polygons := s.polygons ++
            [⟨s.currentPoints, colors.getD (s.polygons.length % 8) ""⟩]
          currentPoints := [] }) ∧
    run c2trace =
      { initialState with
        polygons := [⟨[⟨0, 0⟩, ⟨100, 0⟩, ⟨100, 100⟩], "#3498db"⟩] } := by
  constructor
  · intro s p h1 h2
    unfold handlePencilInteraction
    rw [if_pos ⟨h1, h2⟩]
    rfl
  · with_unfolding_all decide

theorem pencil_commit_spec_witness :
    handlePencilInteraction c2state3 ⟨5, 5⟩ =
      { initialState with
        polygons := [⟨[⟨0, 0⟩, ⟨100, 0⟩, ⟨100, 100⟩], "#3498db"⟩] } :=
  (pencil_commit_spec.1 c2state3 ⟨5, 5⟩ (by with_unfolding_all decide)
    (by with_unfolding_all decide)).trans (by with_unfolding_all decide)

/-- C1 counterexample: after the `c1trace` events the state is reachable,
its selected polygon is the second (three-point) triangle, yet the
selected-vertex index is still `3` — left over from the edge split of the
first polygon and not a valid index into the points of the selected
polygon. -/
theorem selectedHandle_stale_after_fill_select :
    (handleStart (run c1trace) ⟨350, 30⟩).selectedPolygon = some 1 ∧
    (handleStart (run c1trace) ⟨350, 30⟩).selectedHandle = some 3 ∧
    ((handleStart (run c1trace) ⟨350, 30⟩).polygons.getD 1 polygon0).points.length = 3 := by
  with_unfolding_all decide

/-- C1 (amended): a press-start that selects a polygon by fill hit leaves
any prior vertex selection unchanged rather than clearing it, so the
selected-vertex index, while set, need not be a valid index into the
points of the currently selected polygon. -/
theorem handleStart_fill_keeps_handle (s : CanvasState) (p : Point) (i : Nat)
    (htool : ¬ s.activeTool = Tool.pencil)
    (hmiss : resizeHit s p = none)
    (hfill : findFillHit p s.polygons = some i) :
    (handleStart s p).selectedPolygon = some i ∧
    (handleStart s p).selectedHandle = s.selectedHandle := by
  unfold handleStart
  rw [if_neg htool, hmiss, hfill]
  exact ⟨rfl, rfl⟩

theorem handleStart_fill_keeps_handle_witness :
    (handleStart (run c1trace) ⟨350, 30⟩).selectedPolygon = some 1 ∧
    (handleStart (run c1trace) ⟨350, 30⟩).selectedHandle = (run c1trace).selectedHandle :=
  handleStart_fill_keeps_handle (run c1trace) ⟨350, 30⟩ 1
    (by with_unfolding_all decide) (by with_unfolding_all decide)
    (by with_unfolding_all decide)

/-- C5 counterexample: pressing a second time (without a release) on empty
canvas while a drag is active clears the selection but leaves the drag
flag set, producing a state with an active drag and no selected polygon
from a plain pointer-event sequence. -/
theorem drag_without_selection_reachable :
    (run c5trace).isDragging = true ∧ (run c5trace).selectedPolygon = none := by
  with_unfolding_all decide

theorem sumSq_eq_zero {a b : ℚ} : a * a + b * b = 0 ↔ a = 0 ∧ b = 0 := by
  constructor
  · intro h
    have ha : a * a = 0 :=
      le_antisymm (by nlinarith [mul_self_nonneg b]) (mul_self_nonneg a)
    have hb : b * b = 0 :=
      le_antisymm (by nlinarith [mul_self_nonneg a]) (mul_self_nonneg b)
    exact ⟨mul_self_eq_zero.mp ha, mul_self_eq_zero.mp hb⟩
  · rintro ⟨rfl, rfl⟩
    ring

theorem point_eq_iff {a b : Point} : a = b ↔ a.x = b.x ∧ a.y = b.y := by
  cases a
  cases b
  simp

theorem lengthSq_eq_zero_iff (a b : Point) :
    (b.x - a.x) * (b.x - a.x) + (b.y - a.y) * (b.y - a.y) = 0 ↔ a = b := by
  rw [sumSq_eq_zero, point_eq_iff]
  constructor
  · rintro ⟨h1, h2⟩
    exact ⟨(sub_eq_zero.mp h1).symm, (sub_eq_zero.mp h2).symm⟩
  · rintro ⟨h1, h2⟩
    rw [← h1, ← h2]
    exact ⟨sub_self _, sub_self _⟩

/-- C4: the projection returns none exactly when the segment has zero
length (`a = b`) or the projection parameter falls strictly outside
`[0, 1]`; in every other case the returned point lies exactly on the
segment, with an unclamped parameter in `[0, 1]`. -/
theorem projectPointOnLine_spec (p a b : Point) :
    (projectPointOnLine p a b = none ↔
      a = b ∨ tParam p a b < 0 ∨ 1 < tParam p a b) ∧
    (∀ r, projectPointOnLine p a b = some r →
      ∃ t, 0 ≤ t ∧ t ≤ 1 ∧
        r = ⟨a.x + t * (b.x - a.x), a.y + t * (b.y - a.y)⟩) := by
  have ht : tParam p a b =
      ((p.x - a.x) * (b.x - a.x) + (p.y - a.y) * (b.y - a.y)) /
        ((b.x - a.x) * (b.x - a.x) + (b.y - a.y) * (b.y - a.y)) := rfl
  unfold projectPointOnLine
  simp only []
  split_ifs with h1 h2
  · refine ⟨?_, ?_⟩
    · exact iff_of_true rfl (Or.inl ((lengthSq_eq_zero_iff a b).mp h1))
    · intro r hr
      exact absurd hr (by simp)
  · refine ⟨iff_of_true rfl (Or.inr (ht ▸ h2)), ?_⟩
    intro r hr
    exact absurd hr (by simp)
  · push_neg at h2
    refine ⟨?_, ?_⟩
    · refine iff_of_false (by simp) ?_
      rintro (hab | hlt | hgt)
      · exact h1 ((lengthSq_eq_zero_iff a b).mpr hab)
      · exact absurd (ht ▸ hlt) (not_lt.mpr h2.1)
      · exact absurd (ht ▸ hgt) (not_lt.mpr h2.2)
    · intro r hr
      refine ⟨tParam p a b, h2.1, h2.2, ?_⟩
      exact (Option.some.inj hr).symm

theorem projectPointOnLine_spec_witness :
    projectPointOnLine ⟨0, 5⟩ ⟨0, 0⟩ ⟨10, 0⟩ = some ⟨0, 0⟩ ∧
    (∃ t, 0 ≤ t ∧ t ≤ 1 ∧
      (⟨0, 0⟩ : Point) = ⟨0 + t * (10 - 0), 0 + t * (0 - 0)⟩) :=
  ⟨by with_unfolding_all decide,
   (projectPointOnLine_spec ⟨0, 5⟩ ⟨0, 0⟩ ⟨10, 0⟩).2 ⟨0, 0⟩
     (by with_unfolding_all decide)⟩

theorem crossing_symm (p a b : Point) : crossing p a b = crossing p b a := by
  unfold crossing
  by_cases ha : a.y > p.y <;> by_cases hb : b.y > p.y
  · simp [ha, hb]
  · have hy : a.y - b.y ≠ 0 := by
      have : b.y ≤ p.y := not_lt.mp hb
      have : b.y < a.y := lt_of_le_of_lt this ha
      exact sub_ne_zero.mpr (ne_of_gt this)
    have hy2 : b.y - a.y ≠ 0 := fun h => hy (by linarith [sub_eq_zero.mp h])
    have key : (b.x - a.x) * (p.y - a.y) / (b.y - a.y) + a.x =
        (a.x - b.x) * (p.y - b.y) / (a.y - b.y) + b.x := by
      field_simp
      ring
    simp [ha, hb, key]
  · have hy : a.y - b.y ≠ 0 := by
      have : a.y ≤ p.y := not_lt.mp ha
      have : a.y < b.y := lt_of_le_of_lt this hb
      exact sub_ne_zero.mpr (ne_of_lt this)
    have hy2 : b.y - a.y ≠ 0 := fun h => hy (by linarith [sub_eq_zero.mp h])
    have key : (b.x - a.x) * (p.y - a.y) / (b.y - a.y) + a.x =
        (a.x - b.x) * (p.y - b.y) / (a.y - b.y) + b.x := by
      field_simp
      ring
    simp [ha, hb, key]
  · simp [ha, hb]

theorem foldl_toggle (c : Nat → Bool) (l : List Nat) (b : Bool) :
    l.foldl (fun inside i => if c i then !inside else inside) b =
      xor b (decide (Odd (l.filter c).length)) := by
  induction l generalizing b with
  | nil => simp
  | cons i t ih =>
    simp only [List.foldl_cons, List.filter_cons]
    by_cases h : c i
    · rw [if_pos h, if_pos h, ih]
      simp only [List.length_cons, Nat.odd_add_one, decide_not]
      generalize decide (Odd (List.filter c t).length) = d
      cases b <;> cases d <;> rfl
    · rw [if_neg h, if_neg h, ih]

theorem isPointInPolygon_single (p a : Point) :
    isPointInPolygon p [a] = false := by
  show (if crossing p a a then !false else false) = false
  unfold crossing
  simp

theorem isPointInPolygon_pair (p a b : Point) :
    isPointInPolygon p [a, b] = false := by
  have h := crossing_symm p a b
  show (if crossing p b a then
          !(if crossing p a b then !false else false)
        else if crossing p a b then !false else false) = false
  rw [← h]
  cases hc : crossing p a b <;> simp

/-- C8: the ray-casting test returns true exactly when the number of
edges whose crossing test fires is odd, and every input with fewer than
three points yields false. -/
theorem isPointInPolygon_spec (p : Point) (pts : List Point) :
    (isPointInPolygon p pts = true ↔ Odd (crossingCount p pts)) ∧
    (pts.length < 3 → isPointInPolygon p pts = false) := by
  constructor
  · rw [show isPointInPolygon p pts =
        (List.range pts.length).foldl
          (fun inside i =>
            if crossing p (pts.getD i pt0) (pts.getD (prevIdx pts.length i) pt0) then
              !inside
            else inside) false from rfl]
    rw [foldl_toggle]
    unfold crossingCount
    cases h : decide (Odd (((List.range pts.length).filter
        (fun i => crossing p (pts.getD i pt0) (pts.getD (prevIdx pts.length i) pt0))).length)) <;>
      simp_all
  · intro hlen
    match pts, hlen with
    | [], _ => rfl
    | [a], _ => exact isPointInPolygon_single p a
    | [a, b], _ => exact isPointInPolygon_pair p a b

theorem isPointInPolygon_spec_witness :
    isPointInPolygon ⟨60, 25⟩ [⟨0, 0⟩, ⟨100, 0⟩, ⟨100, 100⟩] = true ∧
    Odd (crossingCount ⟨60, 25⟩ [⟨0, 0⟩, ⟨100, 0⟩, ⟨100, 100⟩]) ∧
    isPointInPolygon ⟨60, 25⟩ [⟨0, 0⟩, ⟨100, 0⟩] = false :=
  ⟨by with_unfolding_all decide,
   (isPointInPolygon_spec ⟨60, 25⟩ [⟨0, 0⟩, ⟨100, 0⟩, ⟨100, 100⟩]).1.mp
     (by with_unfolding_all decide),
   (isPointInPolygon_spec ⟨60, 25⟩ [⟨0, 0⟩, ⟨100, 0⟩]).2 (by decide)⟩

theorem scanInv_zero (p : Point) (pts : List Point) : ScanInv p pts 0 none := by
  intro i hi
  omega

theorem scanInv_step (p : Point) (pts : List Point) (n : Nat)
    (acc : Option (ℚ × EdgeHit)) (h : ScanInv p pts n acc) :
    ScanInv p pts (n + 1) (edgeStep p pts acc n) := by
  unfold edgeStep
  cases hpr : edgeProj p pts n with
  | none =>
    cases acc with
    | none =>
      intro i hi pr hpr2 hd
      rcases Nat.lt_succ_iff_lt_or_eq.mp hi with hi' | rfl
      · exact h i hi' pr hpr2 hd
      · rw [hpr] at hpr2
        cases hpr2
    | some b =>
      obtain ⟨d, hit⟩ := b
      obtain ⟨i, hi, pr, hpe, hlt, hdeq, hhit, hmin⟩ := h
      refine ⟨i, Nat.lt_succ_of_lt hi, pr, hpe, hlt, hdeq, hhit, ?_⟩
      intro j hj prj hpj hdj
      rcases Nat.lt_succ_iff_lt_or_eq.mp hj with hj' | rfl
      · exact hmin j hj' prj hpj hdj
      · rw [hpr] at hpj
        cases hpj
  | some proj =>
    dsimp only
    by_cases hc : distSq p proj < EDGE_DETECTION_THRESHOLD ^ 2 ∧
        beatsBest (distSq p proj) acc = true
    · rw [if_pos hc]
      refine ⟨n, Nat.lt_succ_self n, proj, hpr, hc.1, rfl, rfl, ?_⟩
      intro j hj prj hpj hdj
      rcases Nat.lt_succ_iff_lt_or_eq.mp hj with hj' | rfl
      · cases acc with
        | none => exact absurd hdj (h j hj' prj hpj)
        | some b =>
          obtain ⟨d, hit⟩ := b
          obtain ⟨i, hi, pr, hpe, hlt, hdeq, hhit, hmin⟩ := h
          have hdd : distSq p proj < d := of_decide_eq_true hc.2
          have := (hmin j hj' prj hpj hdj).1
          exact ⟨le_of_lt (lt_of_lt_of_le hdd this),
            fun _ => lt_of_lt_of_le hdd this⟩
      · rw [hpr] at hpj
        cases hpj
        exact ⟨le_refl _, fun hjj => absurd hjj (lt_irrefl _)⟩
    · rw [if_neg hc]
      cases acc with
      | none =>
        intro i hi pr hpe hd
        rcases Nat.lt_succ_iff_lt_or_eq.mp hi with hi' | rfl
        · exact h i hi' pr hpe hd
        · rw [hpr] at hpe
          cases hpe
          exact hc ⟨hd, rfl⟩
      | some b =>
        obtain ⟨d, hit⟩ := b
        obtain ⟨i, hi, pr, hpe, hlt, hdeq, hhit, hmin⟩ := h
        refine ⟨i, Nat.lt_succ_of_lt hi, pr, hpe, hlt, hdeq, hhit, ?_⟩
        intro j hj prj hpj hdj
        rcases Nat.lt_succ_iff_lt_or_eq.mp hj with hj' | rfl
        · exact hmin j hj' prj hpj hdj
        · rw [hpr] at hpj
          cases hpj
          have hnd : ¬ distSq p proj < d := fun hdd => hc ⟨hdj, decide_eq_true hdd⟩
          exact ⟨not_lt.mp hnd, fun hjj => absurd hjj (Nat.lt_asymm hi)⟩

theorem edgeScan_inv (p : Point) (pts : List Point) (n : Nat) :
    ScanInv p pts n ((List.range n).foldl (edgeStep p pts) none) := by
  induction n with
  | zero => exact scanInv_zero p pts
  | succ n ih =>
    rw [List.range_succ, List.foldl_append]
    exact scanInv_step p pts n _ ih

/-- C3: the edge scan qualifies an edge when the projection exists and its
distance is strictly below `EDGE_THRESHOLD`; the result is `none` exactly
when no edge qualifies, and otherwise it is the projected point of a
qualifying edge `i` with insert index `i + 1` whose distance is minimal,
strictly beating every qualifying edge of lower index (first-wins tie
break). -/
theorem findClosestEdgePoint_spec (p : Point) (pts : List Point) :
    (findClosestEdgePoint p pts = none ↔
      ∀ i < pts.length, ∀ pr, edgeProj p pts i = some pr →
        ¬ distSq p pr < EDGE_DETECTION_THRESHOLD ^ 2) ∧
    (∀ hit, findClosestEdgePoint p pts = some hit →
      ∃ i < pts.length, ∃ pr, edgeProj p pts i = some pr ∧
        distSq p pr < EDGE_DETECTION_THRESHOLD ^ 2 ∧
        hit = ⟨pr, i + 1⟩ ∧
        ∀ j < pts.length, ∀ prj, edgeProj p pts j = some prj →
          distSq p prj < EDGE_DETECTION_THRESHOLD ^ 2 →
          distSq p pr ≤ distSq p prj ∧
            (j < i → distSq p pr < distSq p prj)) := by
  have h := edgeScan_inv p pts pts.length
  unfold findClosestEdgePoint
  cases hacc : (List.range pts.length).foldl (edgeStep p pts) none with
  | none =>
    rw [hacc] at h
    refine ⟨iff_of_true rfl h, ?_⟩
    intro hit heq
    exact absurd heq (by simp)
  | some b =>
    obtain ⟨d, hit0⟩ := b
    rw [hacc] at h
    obtain ⟨i, hi, pr, hpe, hlt, hdeq, hhit, hmin⟩ := h
    constructor
    · refine iff_of_false (by simp) ?_
      intro hall
      exact hall i hi pr hpe hlt
    · intro hit heq
      have : hit = hit0 := (Option.some.inj heq).symm
      subst this
      refine ⟨i, hi, pr, hpe, hlt, hhit, ?_⟩
      intro j hj prj hpj hdj
      have := hmin j hj prj hpj hdj
      rw [hdeq] at this
      exact this

theorem findClosestEdgePoint_spec_witness :
    findClosestEdgePoint ⟨50, 3⟩ sqPts = some ⟨⟨50, 0⟩, 1⟩ ∧
    (∃ i < sqPts.length, ∃ pr, edgeProj ⟨50, 3⟩ sqPts i = some pr ∧
      distSq ⟨50, 3⟩ pr < EDGE_DETECTION_THRESHOLD ^ 2 ∧
      (⟨⟨50, 0⟩, 1⟩ : EdgeHit) = ⟨pr, i + 1⟩ ∧
      ∀ j < sqPts.length, ∀ prj, edgeProj ⟨50, 3⟩ sqPts j = some prj →
        distSq ⟨50, 3⟩ prj < EDGE_DETECTION_THRESHOLD ^ 2 →
        distSq ⟨50, 3⟩ pr ≤ distSq ⟨50, 3⟩ prj ∧
          (j < i → distSq ⟨50, 3⟩ pr < distSq ⟨50, 3⟩ prj)) :=
  ⟨by with_unfolding_all decide,
   (findClosestEdgePoint_spec ⟨50, 3⟩ sqPts).2 ⟨⟨50, 0⟩, 1⟩
     (by with_unfolding_all decide)⟩

theorem handleToolChange_isDragging (s : CanvasState) (t : Tool) :
    (handleToolChange s t).isDragging = false := by
  cases t <;> rfl

theorem handleMove_fields (s : CanvasState) (p : Point) :
    (handleMove s p).isDragging = s.isDragging ∧
    (handleMove s p).selectedPolygon = s.selectedPolygon := by
  unfold handleMove
  cases hb : s.isDragging <;> cases hsp : s.selectedPolygon <;>
    cases hds : s.dragStart <;> simp [hb, hsp, hds]

theorem handleInteraction_fields (s : CanvasState) (p : Point) :
    (handleInteraction s p).isDragging = s.isDragging ∧
    (s.selectedPolygon.isSome → (handleInteraction s p).selectedPolygon.isSome) := by
  unfold handleInteraction
  by_cases hdr : s.isDragging
  · rw [if_pos hdr]
    exact ⟨rfl, fun h => h⟩
  · rw [if_neg hdr]
    by_cases htool : s.activeTool = Tool.pencil
    · rw [if_pos htool]
      unfold handlePencilInteraction
      split_ifs with h1 h2
      · exact ⟨rfl, fun h => h⟩
      · cases hsplit : findSplit p s.polygons with
        | some pr =>
          obtain ⟨i, hit⟩ := pr
          exact ⟨rfl, fun _ => rfl⟩
        | none => exact ⟨rfl, fun h => h⟩
      · exact ⟨rfl, fun h => h⟩
    · rw [if_neg htool]
      exact ⟨rfl, fun h => h⟩

theorem handleStart_drag_selection (s : CanvasState) (p : Point)
    (h0 : s.isDragging = false) :
    (handleStart s p).isDragging = true →
    (handleStart s p).selectedPolygon.isSome := by
  unfold handleStart
  by_cases htool : s.activeTool = Tool.pencil
  · rw [if_pos htool, h0]
    intro hd
    exact absurd hd (by decide)
  · rw [if_neg htool]
    cases hr : resizeHit s p with
    | some i =>
      intro _
      dsimp only
      unfold resizeHit at hr
      by_cases hsel : s.activeTool = Tool.select
      · rw [if_pos hsel] at hr
        obtain ⟨sp, hsp, _⟩ := Option.bind_eq_some.mp hr
        rw [hsp]
        rfl
      · rw [if_neg hsel] at hr
        cases hr
    | none =>
      cases hf : findFillHit p s.polygons with
      | some i =>
        intro _
        rfl
      | none =>
        dsimp only
        rw [h0]
        intro hd
        exact absurd hd (by decide)

/-- C5 (amended): over well-formed pointer streams — every press arrives
while no drag is active — any reachable state with an active drag has a
selected polygon; the unrestricted claim fails only for a second press
issued during an active drag. -/
theorem guarded_drag_has_selection {s : CanvasState}
    (h : ReachableGuarded s) :
    s.isDragging = true → s.selectedPolygon.isSome := by
  induction h with
  | init => intro hd; cases hd
  | press p hr hguard ih =>
    intro hd
    exact handleStart_drag_selection _ p hguard hd
  | moveEv p hr ih =>
    intro hd
    rename_i s0
    rw [(handleMove_fields s0 p).2]
    exact ih ((handleMove_fields s0 p).1 ▸ hd)
  | releaseEv hr ih => intro hd; cases hd
  | commitEv p hr ih =>
    intro hd
    rename_i s0
    exact (handleInteraction_fields s0 p).2
      (ih ((handleInteraction_fields s0 p).1 ▸ hd))
  | toolEv t hr ih =>
    intro hd
    rename_i s0
    rw [handleToolChange_isDragging s0 t] at hd
    cases hd

theorem guarded_drag_has_selection_witness :
    (handleStart (handleToolChange (handleInteraction (handleInteraction
      (handleInteraction (handleInteraction initialState ⟨0, 0⟩) ⟨100, 0⟩)
      ⟨100, 100⟩) ⟨5, 5⟩) Tool.select) ⟨60, 25⟩).selectedPolygon.isSome :=
  guarded_drag_has_selection
    (ReachableGuarded.press ⟨60, 25⟩
      (ReachableGuarded.toolEv Tool.select
        (ReachableGuarded.commitEv ⟨5, 5⟩
          (ReachableGuarded.commitEv ⟨100, 100⟩
            (ReachableGuarded.commitEv ⟨100, 0⟩
              (ReachableGuarded.commitEv ⟨0, 0⟩ ReachableGuarded.init)))))
      (by with_unfolding_all decide))
    (by with_unfolding_all decide)

theorem handleStart_polygons (s : CanvasState) (p : Point) :
    (handleStart s p).polygons = s.polygons := by
  unfold handleStart
  by_cases htool : s.activeTool = Tool.pencil
  · rw [if_pos htool]
  · rw [if_neg htool]
    cases resizeHit s p with
    | some i => rfl
    | none =>
      cases findFillHit p s.polygons with
      | some i => rfl
      | none => rfl

theorem minPoints_modify (polys : List Polygon) (i : Nat)
    (f : List Point → List Point)
    (hf : ∀ pts, pts.length ≤ (f pts).length)
    (h : ∀ poly ∈ polys, 3 ≤ poly.points.length) :
    ∀ poly ∈ modifyPolyPoints polys i f, 3 ≤ poly.points.length := by
  unfold modifyPolyPoints
  cases hg : polys.get? i with
  | none => exact h
  | some poly0 =>
    intro poly hmem
    rcases List.mem_or_eq_of_mem_set hmem with hmem' | rfl
    · exact h poly hmem'
    · exact le_trans (h poly0 (List.get?_mem hg)) (hf poly0.points)

theorem handleMove_minPoints (s : CanvasState) (p : Point) (h : MinPoints s) :
    MinPoints (handleMove s p) := by
  unfold handleMove
  cases hb : s.isDragging <;> cases hsp : s.selectedPolygon <;>
      cases hds : s.dragStart <;> try exact h
  rename_i sp ds
  dsimp only
  by_cases hm : s.dragMode = DragMode.resize
  · rw [if_pos hm]
    cases s.selectedHandle with
    | some hh =>
      intro poly hmem
      exact minPoints_modify s.polygons sp
        (fun pts => pts.set hh
          ⟨(pts.getD hh pt0).x + (p.x - ds.x), (pts.getD hh pt0).y + (p.y - ds.y)⟩)
        (fun pts => by rw [List.length_set]) h poly hmem
    | none => exact fun poly hmem => h poly hmem
  · rw [if_neg hm]
    intro poly hmem
    exact minPoints_modify s.polygons sp
      (fun pts => List.map (fun q => ⟨q.x + (p.x - ds.x), q.y + (p.y - ds.y)⟩) pts)
      (fun pts => by rw [List.length_map]) h poly hmem

theorem handlePencilInteraction_minPoints (s : CanvasState) (p : Point)
    (h : MinPoints s) : MinPoints (handlePencilInteraction s p) := by
  unfold handlePencilInteraction
  split_ifs with h1 h2
  · intro poly hmem
    rcases List.mem_append.mp hmem with hm | hm
    · exact h poly hm
    · rw [List.mem_singleton.mp hm]
      show 3 ≤ s.currentPoints.length
      have := h1.1
      omega
  · cases hsplit : findSplit p s.polygons with
    | some pr =>
      obtain ⟨i, hit⟩ := pr
      intro poly hmem
      exact minPoints_modify s.polygons i _
        (fun pts => List.length_le_length_insertIdx pts hit.point hit.index)
        h poly hmem
    | none => exact fun poly hmem => h poly hmem
  · exact fun poly hmem => h poly hmem

theorem step_minPoints (s : CanvasState) (e : Event) (h : MinPoints s) :
    MinPoints (step s e) := by
  cases e with
  | press p =>
    intro poly hmem
    rw [show step s (Event.press p) = handleStart s p from rfl,
      handleStart_polygons] at hmem
    exact h poly hmem
  | moveTo p => exact handleMove_minPoints s p h
  | release => exact fun poly hmem => h poly hmem
  | commit p =>
    rw [show step s (Event.commit p) = handleInteraction s p from rfl]
    unfold handleInteraction
    split_ifs with hdr htool
    · exact h
    · exact handlePencilInteraction_minPoints s p h
    · exact h
  | setTool t => cases t <;> exact fun poly hmem => h poly hmem

theorem run_minPoints (events : List Event) :
    ∀ (s0 : CanvasState), MinPoints s0 → MinPoints (events.foldl step s0) := by
  induction events with
  | nil => exact fun s0 h => h
  | cons e t ih => exact fun s0 h => ih (step s0 e) (step_minPoints s0 e h)

/-- C9: in every reachable state, every committed polygon has at least
three points. -/
theorem reachable_minPoints {s : CanvasState} (h : Reachable s) :
    ∀ poly ∈ s.polygons, 3 ≤ poly.points.length := by
  obtain ⟨events, rfl⟩ := h
  exact run_minPoints events initialState
    (fun poly hmem => absurd hmem (List.not_mem_nil poly))

theorem reachable_minPoints_witness :
    3 ≤ ((run c9trace).polygons.getD 0 polygon0).points.length :=
  reachable_minPoints ⟨c9trace, rfl⟩ _ (by with_unfolding_all decide)

end Shapes
